import Mathlib

/-!
Verification development for the CanvasForge canvas editor.

Shallow embedding of the core data model and operations of the repository
(`src/main.py`, `src/undo_manager.py`) in Lean 4, used to settle the claims
of the natural-language specification against the code.

Conventions of the embedding:
- Python floats are modelled as rationals (`ℚ`); pixel coordinates as `ℤ`.
- Qt scene/graphics state is modelled explicitly: an item's observable state
  is a record (position, rotation, uniform scale, z-value, pixmap handle,
  scene membership, primitive rect), and the scene plus the layer list form
  a `World`.
- Stateful methods become pure state-passing functions.
- Lists standing for the Python undo/redo stacks keep the MOST RECENT entry
  at the HEAD (the Python source appends at the end and pops from the end;
  `pop(0)` on the source side is dropping from our tail).
-/

namespace CanvasForge

/-! ## Pixel images (RasterItem bitmaps)

`QImage`/`QPixmap` pixel buffers are modelled as a total pixel function over
`ℤ × ℤ` together with the declared width and height; claims only constrain
pixels inside the bounds. -/

/-- An ARGB32 pixel value: alpha, red, green, blue channels. -/
structure Color where
  alpha : ℕ
  red : ℕ
  green : ℕ
  blue : ℕ
deriving DecidableEq, Repr

/-- The fully transparent pixel (`Qt.GlobalColor.transparent` under
`CompositionMode_Clear`: every channel zero). -/
def transparentColor : Color := ⟨0, 0, 0, 0⟩

/-- A decoded bitmap: dimensions plus a pixel lookup function. -/
structure Image where
  width : ℤ
  height : ℤ
  px : ℤ → ℤ → Color

/-- A `QRectF`: x, y, width, height over the rationals. -/
structure RectQ where
  x : ℚ
  y : ℚ
  w : ℚ
  h : ℚ
deriving DecidableEq, Repr

/-- A `QRect` with integer coordinates. -/
structure RectZ where
  x : ℤ
  y : ℤ
  w : ℤ
  h : ℤ
deriving DecidableEq, Repr

/-- `QRectF.normalized()`: flips a rect that has negative width or height so
that width and height become non-negative. -/
def RectQ.normalizedR (r : RectQ) : RectQ :=
  ⟨if r.w < 0 then r.x + r.w else r.x,
   if r.h < 0 then r.y + r.h else r.y,
   |r.w|, |r.h|⟩

/-- `QRectF.intersected`: the intersection rectangle.  (Qt returns a null
rect when the rects do not intersect; in that case the rect computed here has
non-positive width or height and `isEmptyR` below holds, which is all the
source ever tests.) -/
def RectQ.intersected (r s : RectQ) : RectQ :=
  let x1 := max r.x s.x
  let y1 := max r.y s.y
  let x2 := min (r.x + r.w) (s.x + s.w)
  let y2 := min (r.y + r.h) (s.y + s.h)
  ⟨x1, y1, x2 - x1, y2 - y1⟩

/-- `QRectF.isEmpty()`: width or height is not positive. -/
def RectQ.isEmptyR (r : RectQ) : Bool := r.w ≤ 0 || r.h ≤ 0

/-- `QRectF.toAlignedRect()`: the smallest integer rect containing the rect
(floor the top-left corner, ceil the bottom-right corner). -/
def RectQ.toAlignedRect (r : RectQ) : RectZ :=
  ⟨⌊r.x⌋, ⌊r.y⌋, ⌈r.x + r.w⌉ - ⌊r.x⌋, ⌈r.y + r.h⌉ - ⌊r.y⌋⟩

/-- `QPointF.toPoint()` rounding (`qRound`) for the non-negative coordinates
that arise here: round half up. -/
def qround (q : ℚ) : ℤ := ⌊q + 1/2⌋

/-- `QImage.copy(rect)`: a new image of the rect's size whose pixel `(i, j)`
is the source pixel `(rect.x + i, rect.y + j)`.  (Out-of-bounds source pixels
are unconstrained; every claim keeps the rect inside the source bounds.) -/
def Image.copyRect (img : Image) (r : RectZ) : Image :=
  ⟨r.w, r.h, fun i j => img.px (r.x + i) (r.y + j)⟩

/-- `QPainter.fillRect(rect, color)` on an image: every pixel inside the rect
becomes `c`, the rest is unchanged.  Used by `endSelection` with
`CompositionMode_Clear` and the transparent color (TRANSPARENT mode) or with
the sampled fill color (AUTO_FILL mode). -/
def Image.fillRect (img : Image) (r : RectZ) (c : Color) : Image :=
  { img with
    px := fun i j =>
      if r.x ≤ i ∧ i < r.x + r.w ∧ r.y ≤ j ∧ j < r.y + r.h then c
      else img.px i j }

/-- `FillMode` enum of `main.py`. -/
inductive FillMode where
  | TRANSPARENT
  | AUTO_FILL
deriving DecidableEq, Repr

/-- Observable state of a `RasterItem` host for the selection/crop protocol.
The selection overlay is stored as its rect ALREADY MAPPED to the host's
local (unrotated, unscaled) coordinate space: `_selection_rects` first maps
the overlay's scene rect through `mapFromScene`, and everything after that
point only uses the mapped rect, so the embedding takes the mapped rect as
the stored datum (the affine scene-to-local mapping itself is not modelled).
Placement of the extracted item (`_scene_pos_for_center`) is outside the
claims and not modelled. -/
structure RasterItemM where
  img : Image
  overlayLocalRect : Option RectQ
  posX : ℚ
  posY : ℚ
  itemRotation : ℚ
  scaleFactor : ℚ

/-- `RasterItem._selection_rects` (main.py:699-710), from the point where the
overlay rect is available in host-local coordinates: normalize, intersect
with the pixel bounds `[0, 0, width, height]`, and return `none` when the
intersection is empty. -/
def RasterItemM.selectionRects (it : RasterItemM) : Option RectQ :=
  match it.overlayLocalRect with
  | none => none
  | some raw =>
      let localRect := raw.normalizedR
      let pixRect : RectQ := ⟨0, 0, (it.img.width : ℚ), (it.img.height : ℚ)⟩
      let clipped := localRect.intersected pixRect
      if clipped.isEmptyR then none else some clipped

/-- `RasterItem.endSelection` (main.py:712-744).  Returns the extracted
bitmap (the new `RasterItem`'s pixmap; the new item also inherits the host's
scale and rotation, which the claims do not constrain) together with the
updated host.  When the clipped selection is empty the overlay is destroyed
and nothing is returned.  Otherwise the sub-region is copied out; if
`removeOriginal` is set the host bitmap is repainted at the region —
transparent in TRANSPARENT mode, or a flat fill of the color sampled at the
selection rect's center point (`local_rect.center().toPoint()`) in AUTO_FILL
mode — and finally the overlay is destroyed. -/
def RasterItemM.endSelection (it : RasterItemM) (fillMode : FillMode)
    (removeOriginal : Bool) : Option Image × RasterItemM :=
  match it.selectionRects with
  | none => (none, { it with overlayLocalRect := none })
  | some localRect =>
      let selectRectInt := localRect.toAlignedRect
      let cropped := it.img.copyRect selectRectInt
      let it' :=
        if removeOriginal then
          let base :=
            match fillMode with
            | FillMode.TRANSPARENT => it.img.fillRect selectRectInt transparentColor
            | FillMode.AUTO_FILL =>
                let avgColor := it.img.px (qround (localRect.x + localRect.w / 2))
                  (qround (localRect.y + localRect.h / 2))
                it.img.fillRect selectRectInt avgColor
          { it with img := base }
        else it
      (some cropped, { it' with overlayLocalRect := none })

/-! ## Scene items, layer list, and the undo world

Observable scene state for the undo/redo and layer claims: each item carries
position, rotation, uniform scale, z-value, a pixmap handle (pixel contents
are abstract at this level; the pixel-exact model above serves the crop
claims), scene membership, and a primitive rect (for rectangle/ellipse
items).  The layer list holds item references top-first (index 0 = top). -/

abbrev ItemId := ℕ

/-- Observable state of one scene item. -/
structure ItemState where
  posX : ℚ
  posY : ℚ
  rotation : ℚ
  scaleFactor : ℚ
  zValue : ℚ
  pixmap : ℕ
  inScene : Bool
  rect : RectQ
deriving DecidableEq, Repr

/-- State of a freshly constructed `QGraphicsItem`: origin position, no
rotation, unit scale, z-value 0, not yet added to a scene. -/
def freshItem : ItemState :=
  ⟨0, 0, 0, 1, 0, 0, false, ⟨0, 0, 0, 0⟩⟩

/-- The scene (all items, total over ids) plus the layer list. -/
structure World where
  items : ItemId → ItemState
  layer : List ItemId

/-- Replace the state of one item. -/
def setItem (w : World) (id : ItemId) (st : ItemState) : World :=
  { w with items := Function.update w.items id st }

/-- The empty world: every item fresh, empty layer list. -/
def emptyWorld : World := ⟨fun _ => freshItem, []⟩

/-- Loop body of `LayerList.update_z_orders` (main.py:913-920): walking the
layer entries with ascending index `i`, assign z-value `count - i` to the
item referenced at index `i`. -/
def assignZ (count : ℕ) (f : ItemId → ItemState) : ℕ → List ItemId → (ItemId → ItemState)
  | _, [] => f
  | i, id :: rest =>
      assignZ count (Function.update f id { f id with zValue := (count : ℚ) - (i : ℚ) }) (i + 1) rest

/-- `LayerList.update_z_orders`: re-assert `z = count - index` for every
layer entry (the `scene.update()` repaint has no observable state). -/
def updateZOrders (w : World) : World :=
  { w with items := assignZ w.layer.length w.items 0 w.layer }

/-- `LayerList.remove_graphics_items` (main.py:931-942): early return on an
empty argument; otherwise drop every matching entry, and re-run
`update_z_orders` only when something was actually removed. -/
def removeGraphicsItems (ids : List ItemId) (w : World) : World :=
  if ids = [] then w
  else
    let newLayer := w.layer.filter (fun i => !ids.contains i)
    if newLayer = w.layer then w
    else updateZOrders { w with layer := newLayer }

/-! ## Undoable actions (`undo_manager.py`)

One constructor per built-in action class the claims mention. `RemoveItem`
carries the position and z-value captured at construction
(`RemoveItemAction.__init__`); `Move`, `Transform` and `ImageEdit` carry
their captured old/new values; `group` is `ActionGroup` (description plus an
ordered child list). `PropertyChangeAction`/`CallbackAction` set arbitrary
attributes / run arbitrary callbacks and are outside this model. -/

inductive UAction where
  | addItem (id : ItemId)
  | removeItem (id : ItemId) (capPosX capPosY capZ : ℚ)
  | move (id : ItemId) (oldX oldY newX newY : ℚ)
  | transform (id : ItemId) (oldRot oldScale newRot newScale : ℚ)
  | imageEdit (id : ItemId) (oldPixmap newPixmap : ℕ)
  | group (description : String) (children : List UAction)
deriving Repr

mutual

/-- `execute()` of each action class (undo_manager.py:163-262):
`AddItemAction` inserts into the scene if absent; `RemoveItemAction` removes
from the scene and the layer list if present; `MoveItemAction` sets the new
position; `TransformItemAction` sets the new rotation and scale;
`ImageEditAction` swaps in the new pixmap; `ActionGroup.execute` runs the
children in order. -/
def execAction : UAction → World → World
  | .addItem id, w =>
      if (w.items id).inScene then w
      else setItem w id { w.items id with inScene := true }
  | .removeItem id _ _ _, w =>
      if (w.items id).inScene then
        removeGraphicsItems [id] (setItem w id { w.items id with inScene := false })
      else w
  | .move id _ _ newX newY, w =>
      setItem w id { w.items id with posX := newX, posY := newY }
  | .transform id _ _ newRot newScale, w =>
      setItem w id { w.items id with rotation := newRot, scaleFactor := newScale }
  | .imageEdit id _ newPixmap, w =>
      setItem w id { w.items id with pixmap := newPixmap }
  | .group _ children, w => execListFwd children w

/-- Run a child list in order (`ActionGroup.execute`). -/
def execListFwd : List UAction → World → World
  | [], w => w
  | a :: rest, w => execListFwd rest (execAction a w)

end

mutual

/-- `undo()` of each action class: `AddItemAction` removes from the scene
AND the layer list if present; `RemoveItemAction` re-inserts into the scene
and restores the captured position and z-value (it does NOT restore the
layer entry); `Move`/`Transform`/`ImageEdit` write back the captured old
values; `ActionGroup.undo` undoes the children in reverse order. -/
def undoAction : UAction → World → World
  | .addItem id, w =>
      if (w.items id).inScene then
        removeGraphicsItems [id] (setItem w id { w.items id with inScene := false })
      else w
  | .removeItem id capPosX capPosY capZ, w =>
      if (w.items id).inScene then w
      else setItem w id
        { w.items id with inScene := true, posX := capPosX, posY := capPosY, zValue := capZ }
  | .move id oldX oldY _ _, w =>
      setItem w id { w.items id with posX := oldX, posY := oldY }
  | .transform id oldRot oldScale _ _, w =>
      setItem w id { w.items id with rotation := oldRot, scaleFactor := oldScale }
  | .imageEdit id oldPixmap _, w =>
      setItem w id { w.items id with pixmap := oldPixmap }
  | .group _ children, w => undoListRev children w

/-- Undo a child list in reverse order (`ActionGroup.undo`): the head of the
list is undone last. -/
def undoListRev : List UAction → World → World
  | [], w => w
  | a :: rest, w => undoAction a (undoListRev rest w)

end

mutual

/-- Safety condition under which an action's captured state matches the
current world and its undo writes back everything its execute touched:
`Move`/`Transform`/`ImageEdit` require the captured old values to equal the
current ones; `AddItem` requires the item outside the scene and the layer
list; `RemoveItem` requires the item in the scene, the captured position and
z-value current, and NO layer entry (its undo never restores one); a group
requires each child safe in the world reached by its predecessors. -/
def safeAction : UAction → World → Bool
  | .addItem id, w => !(w.items id).inScene && !w.layer.contains id
  | .removeItem id capPosX capPosY capZ, w =>
      (w.items id).inScene && decide ((w.items id).posX = capPosX)
        && decide ((w.items id).posY = capPosY) && decide ((w.items id).zValue = capZ)
        && !w.layer.contains id
  | .move id oldX oldY _ _, w =>
      decide ((w.items id).posX = oldX) && decide ((w.items id).posY = oldY)
  | .transform id oldRot oldScale _ _, w =>
      decide ((w.items id).rotation = oldRot) && decide ((w.items id).scaleFactor = oldScale)
  | .imageEdit id oldPixmap _, w => decide ((w.items id).pixmap = oldPixmap)
  | .group _ children, w => safeList children w

/-- Child-by-child safety along the forward execution of a group. -/
def safeList : List UAction → World → Bool
  | [], _ => true
  | a :: rest, w => safeAction a w && safeList rest (execAction a w)

end

/-- The "captured old/new state matches the current state" condition alone
(what C1 quantifies over): captured old values equal the current ones;
`AddItemAction` captures nothing. -/
def capturesMatch : UAction → World → Bool
  | .addItem _, _ => true
  | .removeItem id capPosX capPosY capZ, w =>
      decide ((w.items id).posX = capPosX) && decide ((w.items id).posY = capPosY)
        && decide ((w.items id).zValue = capZ)
  | .move id oldX oldY _ _, w =>
      decide ((w.items id).posX = oldX) && decide ((w.items id).posY = oldY)
  | .transform id oldRot oldScale _ _, w =>
      decide ((w.items id).rotation = oldRot) && decide ((w.items id).scaleFactor = oldScale)
  | .imageEdit id oldPixmap _, w => decide ((w.items id).pixmap = oldPixmap)
  | .group _ _, _ => true

/-! ## The UndoManager (`undo_manager.py:52-156`) -/

/-- An `ActionGroup` still being built on the group stack
(`begin_group`/`end_group`). -/
structure PendingGroup where
  name : String
  children : List UAction
deriving Repr

/-- `UndoManager` state plus the world it acts on.  Stacks keep the most
recent entry at the HEAD (the source appends/pops at the Python-list end;
`pop(0)` in `_trim_history` discards from our tail). The group stack's head
is the innermost open group.  The pyqtSignal emissions carry no state. -/
structure UMState where
  world : World
  undoStack : List UAction
  redoStack : List UAction
  maxHistory : ℕ
  groupStack : List PendingGroup

/-- `UndoManager._trim_history` (undo_manager.py:146-149): while the undo
stack is over the limit, discard the oldest entry (the tail here). -/
def trimHistory (maxH : ℕ) (l : List UAction) : List UAction :=
  if l.length > maxH then trimHistory maxH l.dropLast else l
termination_by l.length
decreasing_by
  simp only [List.length_dropLast]
  omega

/-- `UndoManager.execute` (undo_manager.py:68-79): run the action; if a
group is open add it to the innermost group, otherwise push it on the undo
stack, clear the redo stack, and trim. -/
def UMState.execute (s : UMState) (a : UAction) : UMState :=
  let w := execAction a s.world
  match s.groupStack with
  | g :: rest =>
      { s with world := w, groupStack := { g with children := g.children ++ [a] } :: rest }
  | [] =>
      { s with world := w,
               undoStack := trimHistory s.maxHistory (a :: s.undoStack),
               redoStack := [] }

/-- `UndoManager.push` (undo_manager.py:81-89): like `execute` but without
running the action. -/
def UMState.push (s : UMState) (a : UAction) : UMState :=
  match s.groupStack with
  | g :: rest =>
      { s with groupStack := { g with children := g.children ++ [a] } :: rest }
  | [] =>
      { s with undoStack := trimHistory s.maxHistory (a :: s.undoStack),
               redoStack := [] }

/-- `UndoManager.undo` (undo_manager.py:91-99): pop the most recent action,
run its undo, move it to the redo stack; `false` when the stack is empty. -/
def UMState.undoTop (s : UMState) : UMState × Bool :=
  match s.undoStack with
  | [] => (s, false)
  | a :: rest =>
      ({ s with world := undoAction a s.world, undoStack := rest,
                redoStack := a :: s.redoStack }, true)

/-- `UndoManager.redo` (undo_manager.py:101-109): pop the most recent undone
action, re-execute it, move it back to the undo stack. -/
def UMState.redoTop (s : UMState) : UMState × Bool :=
  match s.redoStack with
  | [] => (s, false)
  | a :: rest =>
      ({ s with world := execAction a s.world, redoStack := rest,
                undoStack := a :: s.undoStack }, true)

/-- `UndoManager.begin_group` (undo_manager.py:111-113): open a fresh empty
group as the new innermost group. -/
def UMState.beginGroup (s : UMState) (name : String) : UMState :=
  { s with groupStack := ⟨name, []⟩ :: s.groupStack }

/-- `UndoManager.end_group` (undo_manager.py:115-123): pop the innermost
group; if it has children, push it DIRECTLY on the undo stack (never into a
still-open enclosing group), clear the redo stack, and trim; an empty group
is silently discarded. -/
def UMState.endGroup (s : UMState) : UMState :=
  match s.groupStack with
  | [] => s
  | g :: rest =>
      if g.children.isEmpty then { s with groupStack := rest }
      else
        { s with groupStack := rest,
                 undoStack := trimHistory s.maxHistory (UAction.group g.name g.children :: s.undoStack),
                 redoStack := [] }

/-! ## Layer Model structural operations (claim C3) -/

/-- One structural operation on the Layer Model. -/
inductive LayerOp where
  | insertTop (id : ItemId)
  | removeBulk (ids : List ItemId)
  | reorder (newOrder : List ItemId)
  | moveDelta (row : ℕ) (delta : ℤ)
deriving Repr

/-- Apply one Layer Model operation.
`insertTop`: `MainWindow.add_item_to_canvas` (main.py:3011-3012) inserts at
index 0 then runs `update_z_orders`.
`removeBulk`: `LayerList.remove_graphics_items`.
`reorder`: `LayerList.dropEvent` (main.py:909-911) — the internal drag/drop
rearranges the entries (any permutation), then `update_z_orders`.
`moveDelta`: `MainWindow.adjust_layer_z` (main.py:3259-3269) — guard the
target index, take the row, re-insert at `row + delta`, `update_z_orders`.
(The source also guards `row == -1`, i.e. no current row: the caller passes
a valid current row, modelled by the same bounds guard.) -/
def applyLayerOp (op : LayerOp) (w : World) : World :=
  match op with
  | .insertTop id => updateZOrders { w with layer := id :: w.layer }
  | .removeBulk ids => removeGraphicsItems ids w
  | .reorder newOrder => updateZOrders { w with layer := newOrder }
  | .moveDelta row delta =>
      let count := w.layer.length
      let newRow : ℤ := (row : ℤ) + delta
      if h : row < count ∧ 0 ≤ newRow ∧ newRow < (count : ℤ) then
        updateZOrders
          { w with layer := (w.layer.eraseIdx row).insertIdx newRow.toNat (w.layer.get ⟨row, h.1⟩) }
      else w

/-- Side conditions under which the surrounding application performs the
operation: a fresh item is inserted at the top (`add_item_to_canvas` is fed
newly materialized items), and a drag-reorder can only permute the existing
entries. -/
def validOp : LayerOp → World → Prop
  | .insertTop id, w => id ∉ w.layer
  | .removeBulk _, _ => True
  | .reorder newOrder, w => newOrder.Perm w.layer
  | .moveDelta _ _, _ => True

/-- Apply a sequence of Layer Model operations in order. -/
def applySeq : List LayerOp → World → World
  | [], w => w
  | op :: ops, w => applySeq ops (applyLayerOp op w)

/-- Validity of a whole sequence, each operation judged in the world its
predecessors produced. -/
def validSeq : List LayerOp → World → Prop
  | [], _ => True
  | op :: ops, w => validOp op w ∧ validSeq ops (applyLayerOp op w)

/-- The layer/z-order invariant: the item referenced at layer index `i` has
z-value `count - i`. -/
def LayerInv (w : World) : Prop :=
  ∀ i (h : i < w.layer.length), (w.items (w.layer.get ⟨i, h⟩)).zValue = (w.layer.length : ℚ) - (i : ℚ)

/-! ## RECTANGLE-tool scenario (claim C2)

The canvas view's drawing flow for the RECTANGLE tool, plus the
`itemAdded → MainWindow.add_item_to_canvas` consumer.  The view state keeps
the undo-manager state (which owns the world) plus the in-progress drawing
item and drag-start point. -/

/-- `QRectF(p, q).normalized()`: top-left at the componentwise minimum,
non-negative width/height. -/
def normalizedRectFrom (p q : ℚ × ℚ) : RectQ :=
  (RectQ.mk p.1 p.2 (q.1 - p.1) (q.2 - p.2)).normalizedR

/-- Canvas view state for the drawing flow. -/
structure ViewState where
  um : UMState
  drawingItem : Option ItemId
  startPos : Option (ℚ × ℚ)

/-- `CanvasView.mousePressEvent`, RECTANGLE branch (main.py:1045-1055):
remember the press point, create a zero-size `CanvasRectItem` at it (a fresh
item whose rect is `QRectF(scene_pos, scene_pos)`), and add it to the scene.
The new item is not pushed to the undo manager. -/
def pressRectangle (v : ViewState) (id : ItemId) (p : ℚ × ℚ) : ViewState :=
  let w := v.um.world
  let w' := setItem w id { freshItem with inScene := true, rect := ⟨p.1, p.2, 0, 0⟩ }
  { v with um := { v.um with world := w' }, drawingItem := some id, startPos := some p }

/-- `CanvasView.mouseMoveEvent`, drawing branch (main.py:1104-1107): the
drawing item's rect becomes `QRectF(start, current).normalized()`. -/
def moveRectangle (v : ViewState) (q : ℚ × ℚ) : ViewState :=
  match v.drawingItem, v.startPos with
  | some id, some p =>
      let w := v.um.world
      { v with um := { v.um with
          world := setItem w id { w.items id with rect := normalizedRectFrom p q } } }
  | _, _ => v

/-- `MainWindow.add_item_to_canvas` (main.py:2994-3012): insert the item in
the scene if absent, insert its layer entry at index 0, re-run
`update_z_orders`.  (The selection sync and viewport behavior that follow
touch no state the claims constrain.)  Nothing is pushed to the undo
manager. -/
def addItemToCanvas (w : World) (id : ItemId) : World :=
  let w1 := if (w.items id).inScene then w else setItem w id { w.items id with inScene := true }
  updateZOrders { w1 with layer := id :: w1.layer }

/-- `CanvasView.mouseReleaseEvent`, drawing branch (main.py:1162-1171): make
the item selectable/movable (flags carry no modelled state), emit
`itemAdded` — consumed by `add_item_to_canvas` — and clear the drawing
state.  The undo stacks are untouched. -/
def releaseRectangle (v : ViewState) : ViewState :=
  match v.drawingItem with
  | some id =>
      { v with um := { v.um with world := addItemToCanvas v.um.world id },
               drawingItem := none, startPos := none }
  | none => v

/-- A fresh application state: empty canvas, fresh `UndoManager` with the
default `max_history = 100`. -/
def freshView : ViewState :=
  ⟨⟨emptyWorld, [], [], 100, []⟩, none, none⟩

/-- The claim-C2 scenario: RECTANGLE press at (10,10), drag to (50,50),
release, on an empty canvas. -/
def rectangleScenario : ViewState :=
  releaseRectangle (moveRectangle (pressRectangle freshView 0 (10, 10)) (50, 50))

/-! ## Handle-drag and canvas-tool transform math (claims C7, C8) -/

/-- Clamp `v` to `[lo, hi]` the way the source writes it:
`max(lo, min(hi, v))`. -/
def clampQ (lo hi v : ℚ) : ℚ := max lo (min hi v)

/-- `ResizeHandle.mouseMoveEvent` (main.py:278-296) for a host without crop
overrides: guard zero reference or current length (no scale change);
otherwise the new uniform scale is
`start_scale * max(0.1, min(10.0, current_length / start_length))`, where
the lengths are the euclidean (`math.hypot`) distances from the host's
bounding-rect center captured at press.  The handle index is one of the 8
resize handles; the computation never reads it. -/
def resizeDragNewScale (_handleIndex : Fin 8) (startScale startLength currentLength : ℚ) : ℚ :=
  if startLength = 0 then startScale
  else if currentLength = 0 then startScale
  else startScale * clampQ (1/10) 10 (currentLength / startLength)

/-- Euclidean squared length, to tie the rational length arguments above to
a concrete vector in witnesses: `d` is the hypot of `v` iff `d ≥ 0` and
`d^2 = v.1^2 + v.2^2`. -/
def isHypotOf (d : ℚ) (v : ℚ × ℚ) : Prop := 0 ≤ d ∧ d ^ 2 = v.1 ^ 2 + v.2 ^ 2

/-- `QPointF.manhattanLength()`: `|x| + |y|`. -/
def manhattanLength (v : ℚ × ℚ) : ℚ := |v.1| + |v.2|

/-- `RotateHandle.mouseMoveEvent` rotation math (main.py:347-357), with the
radian `atan2` and the radians→degrees conversion factor (`180/π`) taken as
parameters: `start_angle = degrees(atan2(sv))`,
`current_angle = degrees(atan2(cv))`, new rotation =
`start_rotation + (current_angle - start_angle)`. -/
def rotateHandleNewRotation (atan2 : ℚ × ℚ → ℚ) (degFactor startRotation : ℚ)
    (sv cv : ℚ × ℚ) : ℚ :=
  startRotation + (atan2 cv * degFactor - atan2 sv * degFactor)

/-- `CanvasView.mouseMoveEvent` ROTATE branch (main.py:1109-1116):
`delta_angle = degrees(atan2(cv) - atan2(sv))`, new rotation =
`start_rotation + delta_angle`, with the vectors measured from the item's
bounding-center. -/
def canvasRotateToolNewRotation (atan2 : ℚ × ℚ → ℚ) (degFactor startRotation : ℚ)
    (sv cv : ℚ × ℚ) : ℚ :=
  startRotation + (atan2 cv - atan2 sv) * degFactor

/-- `CanvasView.mouseMoveEvent` SCALE branch (main.py:1117-1123):
`start_dist`/`curr_dist` are the MANHATTAN lengths of the vectors from the
item's bounding-center; when `start_dist > 0` the new scale is
`start_scale * (curr_dist / start_dist)` with NO clamping (otherwise no
scale change). -/
def canvasScaleToolNewScale (startScale : ℚ) (sv cv : ℚ × ℚ) : ℚ :=
  let startDist := manhattanLength sv
  let currDist := manhattanLength cv
  if 0 < startDist then startScale * (currDist / startDist) else startScale

/-! ## Plugin event-hook dispatch (claim C9)

The view's four event handlers offer each event to the active plugin tool
first and fall through to the built-in tool logic when the hook is absent or
returns `False`.  A hook that raises is modelled as `Except.error`; the
source wraps none of the four call sites in `try/except`, so the embedding
simply propagates the error. -/

/-- Where an event ends up when no exception occurs. -/
inductive DispatchOutcome where
  | pluginHandled
  | builtinTool
deriving DecidableEq, Repr

/-- Plugin-hook step shared by the four handlers: `none` models "no active
plugin tool or hook attribute absent" (the `hasattr` guard). -/
def offerToPlugin (ε : Type) (hook : Option (Except ε Bool)) : Except ε DispatchOutcome :=
  match hook with
  | some (Except.error e) => Except.error e
  | some (Except.ok true) => Except.ok DispatchOutcome.pluginHandled
  | some (Except.ok false) => Except.ok DispatchOutcome.builtinTool
  | none => Except.ok DispatchOutcome.builtinTool

/-- `CanvasView.mousePressEvent` (main.py:1027-1036): middle-button presses
pan before the plugin is consulted; otherwise the hook call
`self._active_plugin_tool._on_view_mouse_press(event)` is unguarded. -/
def mousePressDispatch (ε : Type) (middleButton : Bool)
    (hook : Option (Except ε Bool)) : Except ε DispatchOutcome :=
  if middleButton then Except.ok DispatchOutcome.builtinTool
  else offerToPlugin ε hook

/-- `CanvasView.mouseMoveEvent` (main.py:1081-1092): during a scroll-drag
the base handler runs first; otherwise the `_on_view_mouse_move` hook call
is unguarded. -/
def mouseMoveDispatch (ε : Type) (scrollHandDrag : Bool)
    (hook : Option (Except ε Bool)) : Except ε DispatchOutcome :=
  if scrollHandDrag then Except.ok DispatchOutcome.builtinTool
  else offerToPlugin ε hook

/-- `CanvasView.mouseReleaseEvent` (main.py:1128-1140): middle-button
releases restore the drag mode first; otherwise the
`_on_view_mouse_release` hook call is unguarded. -/
def mouseReleaseDispatch (ε : Type) (middleButton : Bool)
    (hook : Option (Except ε Bool)) : Except ε DispatchOutcome :=
  if middleButton then Except.ok DispatchOutcome.builtinTool
  else offerToPlugin ε hook

/-- `CanvasView.keyPressEvent` (main.py:1426-1445): while a text item is in
editing state the event goes to the base handler; otherwise the
`_on_key_press` hook call is unguarded. -/
def keyPressDispatch (ε : Type) (textEditingActive : Bool)
    (hook : Option (Except ε Bool)) : Except ε DispatchOutcome :=
  if textEditingActive then Except.ok DispatchOutcome.builtinTool
  else offerToPlugin ε hook

/-! ## Concrete states used by the undo round-trip analysis -/

/-- A world holding one item (id 0) that is in the scene with z-value 1 and
a matching layer entry — the normal state right after an item was added. -/
def oneItemWorld : World :=
  ⟨Function.update (fun _ => freshItem) 0 { freshItem with inScene := true, zValue := 1 }, [0]⟩

/-- A `RemoveItemAction` for item 0 whose captured position (0,0) and
z-value 1 match `oneItemWorld`. -/
def removeZeroAction : UAction := UAction.removeItem 0 0 0 1

/-- A fresh undo manager over `oneItemWorld`. -/
def oneItemState : UMState := ⟨oneItemWorld, [], [], 10, []⟩

/-! ## Helper lemmas -/

/-- The `_trim_history` while-loop keeps exactly the `maxH` most recent
entries (a prefix of the head-first stack). -/
theorem trimHistory_eq_take (m : ℕ) (l : List UAction) : trimHistory m l = l.take m := by
  suffices h : ∀ (n : ℕ) (l : List UAction), l.length = n → trimHistory m l = l.take m from
    h l.length l rfl
  intro n
  induction n using Nat.strong_induction_on with
  | _ n ih =>
    intro l hn
    rw [trimHistory]
    by_cases h : l.length > m
    · rw [if_pos h]
      have hlt : l.dropLast.length < n := by rw [List.length_dropLast]; omega
      rw [ih _ hlt l.dropLast rfl, List.dropLast_eq_take, List.take_take,
        Nat.min_eq_left (by omega)]
    · rw [if_neg h, List.take_of_length_le (by omega)]

/-- Taking `m` after appending an already-`m`-truncated tail is the same as
truncating the whole append. -/
theorem take_append_take (u l : List UAction) (m : ℕ) :
    (u ++ l.take m).take m = (u ++ l).take m := by
  rw [List.take_append_eq_append_take, List.take_append_eq_append_take, List.take_take,
    Nat.min_eq_left (Nat.sub_le m u.length)]

/-- Shape of `UndoManager.execute` when no group is open. -/
theorem execute_ungrouped (s : UMState) (a : UAction) (hg : s.groupStack = []) :
    s.execute a =
      { world := execAction a s.world,
        undoStack := (a :: s.undoStack).take s.maxHistory,
        redoStack := [], maxHistory := s.maxHistory, groupStack := [] } := by
  obtain ⟨w, us, rs, m, gs⟩ := s
  simp only at hg
  subst hg
  simp [UMState.execute, trimHistory_eq_take]

/-- Folding `execute` over an action list with no open group: the group
stack stays empty, the bound is unchanged, the undo stack is the `max`-
truncation of the new actions (most recent first) over the old stack, and
the redo stack is empty as soon as one action ran. -/
theorem foldl_execute_ungrouped (acts : List UAction) (s : UMState)
    (hg : s.groupStack = []) (hlen : s.undoStack.length ≤ s.maxHistory) :
    (acts.foldl UMState.execute s).groupStack = [] ∧
    (acts.foldl UMState.execute s).maxHistory = s.maxHistory ∧
    (acts.foldl UMState.execute s).undoStack =
      (acts.reverse ++ s.undoStack).take s.maxHistory ∧
    (acts ≠ [] → (acts.foldl UMState.execute s).redoStack = []) := by
  induction acts generalizing s with
  | nil =>
    refine ⟨hg, rfl, ?_, fun h => absurd rfl h⟩
    simp [List.take_of_length_le hlen]
  | cons a rest ih =>
    have hstep := execute_ungrouped s a hg
    have hg1 : (s.execute a).groupStack = [] := by rw [hstep]
    have hlen1 : (s.execute a).undoStack.length ≤ (s.execute a).maxHistory := by
      rw [hstep]
      simp
    obtain ⟨ih1, ih2, ih3, ih4⟩ := ih (s.execute a) hg1 hlen1
    rw [List.foldl_cons]
    refine ⟨ih1, ?_, ?_, ?_⟩
    · rw [ih2, hstep]
    · rw [ih3, hstep]
      simp only
      rw [take_append_take]
      simp [List.reverse_cons, List.append_assoc]
    · intro _
      rcases rest with _ | ⟨b, rest'⟩
      · simp only [List.foldl_nil]
        rw [hstep]
      · exact ih4 (by simp)

/-! ## Claim C4 — history bound -/

/-- C4: executing `max_history + k` actions through `UndoManager.execute`
with no open group leaves exactly `max_history` entries on the undo stack —
the most recent `max_history` actions, oldest discarded first — and the redo
stack is empty; moreover any single fresh `execute` or `push` with no open
group leaves the redo stack empty. -/
theorem history_bound (s : UMState) (acts : List UAction) (k : ℕ)
    (hg : s.groupStack = []) (hm : 1 ≤ s.maxHistory)
    (hlen : s.undoStack.length ≤ s.maxHistory)
    (hn : acts.length = s.maxHistory + k) :
    (acts.foldl UMState.execute s).undoStack.length = s.maxHistory ∧
    (acts.foldl UMState.execute s).undoStack =
      (acts.reverse ++ s.undoStack).take s.maxHistory ∧
    (acts.foldl UMState.execute s).redoStack = [] ∧
    (∀ (t : UMState) (b : UAction), t.groupStack = [] →
      (t.execute b).redoStack = [] ∧ (t.push b).redoStack = []) := by
  obtain ⟨h1, h2, h3, h4⟩ := foldl_execute_ungrouped acts s hg hlen
  refine ⟨?_, h3, h4 ?_, ?_⟩
  · rw [h3]
    simp only [List.length_take, List.length_append, List.length_reverse]
    omega
  · intro hnil
    rw [hnil] at hn
    simp at hn
    omega
  · intro t b hgt
    constructor
    · rw [execute_ungrouped t b hgt]
    · obtain ⟨w, us, rs, m, gs⟩ := t
      simp only at hgt
      subst hgt
      simp [UMState.push]

/-- Witness for C4 at a concrete input: a fresh manager with
`max_history = 2` and three executed move actions. -/
theorem history_bound_witness :
    ([UAction.move 0 0 0 1 1, UAction.move 0 1 1 2 2, UAction.move 0 2 2 3 3].foldl
        UMState.execute ⟨emptyWorld, [], [], 2, []⟩).undoStack.length = 2 :=
  (history_bound ⟨emptyWorld, [], [], 2, []⟩
    [UAction.move 0 0 0 1 1, UAction.move 0 1 1 2 2, UAction.move 0 2 2 3 3] 1 rfl
    (by norm_num) (by simp) rfl).1

/-! ## Claim C10 — end_group with an enclosing open group -/

/-- C10: when `end_group()` runs while an enclosing group is still open, the
completed non-empty inner group is appended directly to the undo stack
(becoming its most recent entry) and the redo stack is cleared; the
enclosing group (and anything deeper) stays open and unchanged, so nested
groups do not compose into one atomic unit. -/
theorem end_group_does_not_nest (s : UMState) (inner outer : PendingGroup)
    (deeper : List PendingGroup) (c : UAction) (cs : List UAction)
    (hg : s.groupStack = inner :: outer :: deeper)
    (hc : inner.children = c :: cs) (hm : 1 ≤ s.maxHistory) :
    s.endGroup.groupStack = outer :: deeper ∧
    s.endGroup.undoStack =
      UAction.group inner.name inner.children :: s.undoStack.take (s.maxHistory - 1) ∧
    s.endGroup.redoStack = [] ∧
    s.endGroup.world = s.world := by
  obtain ⟨w, us, rs, m, gs⟩ := s
  simp only at hg hm
  subst hg
  have hne : inner.children.isEmpty = false := by rw [hc]; rfl
  simp only [UMState.endGroup, hne, Bool.false_eq_true, if_false, trimHistory_eq_take]
  obtain ⟨m', rfl⟩ : ∃ m', m = m' + 1 := ⟨m - 1, by omega⟩
  simp [List.take_succ_cons]

/-- Witness for C10 at a concrete input: two nested open groups, the inner
one holding a single move action. -/
theorem end_group_does_not_nest_witness :
    (⟨emptyWorld, [], [UAction.move 0 0 0 1 1], 5,
        [⟨"inner", [UAction.move 0 0 0 2 2]⟩, ⟨"outer", []⟩]⟩ : UMState).endGroup.groupStack =
      [⟨"outer", []⟩] :=
  (end_group_does_not_nest
    ⟨emptyWorld, [], [UAction.move 0 0 0 1 1], 5,
      [⟨"inner", [UAction.move 0 0 0 2 2]⟩, ⟨"outer", []⟩]⟩
    ⟨"inner", [UAction.move 0 0 0 2 2]⟩ ⟨"outer", []⟩ [] (UAction.move 0 0 0 2 2) []
    rfl rfl (by norm_num)).1

/-! ## Claim C2 — RECTANGLE-tool scenario -/

/-- C2 (code side): the RECTANGLE press-drag-release (10,10)→(50,50) on an
empty canvas yields one primitive item with rect (10,10,40,40) — width 40,
height 40 — at layer index 0 with z-value 1; but the creation is never
pushed to the UndoManager, so the undo stack is empty, `undo()` reports
failure and removes nothing: the item is still in the scene and the layer
list afterwards, contradicting the claimed undo behavior. -/
theorem rectangle_scenario_undo_is_noop :
    (rectangleScenario.um.world.items 0).rect = ⟨10, 10, 40, 40⟩ ∧
    rectangleScenario.um.world.layer = [0] ∧
    (rectangleScenario.um.world.items 0).zValue = 1 ∧
    (rectangleScenario.um.world.items 0).inScene = true ∧
    rectangleScenario.um.undoStack = [] ∧
    rectangleScenario.um.undoTop.2 = false ∧
    rectangleScenario.um.undoTop.1.world.layer = [0] ∧
    (rectangleScenario.um.undoTop.1.world.items 0).inScene = true := by
  refine ⟨?_, ?_, ?_, ?_, ?_, ?_, ?_, ?_⟩ <;>
    norm_num [rectangleScenario, releaseRectangle, moveRectangle, pressRectangle, freshView,
      addItemToCanvas, updateZOrders, assignZ, setItem, emptyWorld, freshItem,
      normalizedRectFrom, RectQ.normalizedR, UMState.undoTop, Function.update]

/-! ## Claim C7 — uniform clamped resize-handle scaling -/

/-- C7: a resize-handle drag with positive reference length `d0` and current
length `d1` sets the host scale to `old_scale * clamp(d1/d0, 0.1, 10.0)`,
identically for each of the 8 handles, with the ratio clamped exactly at the
boundaries 0.1 and 10.0. -/
theorem resize_handle_uniform_scale (h h' : Fin 8) (startScale d0 d1 : ℚ)
    (hd0 : 0 < d0) (hd1 : 0 < d1) :
    resizeDragNewScale h startScale d0 d1 = startScale * clampQ (1/10) 10 (d1 / d0) ∧
    resizeDragNewScale h' startScale d0 d1 = resizeDragNewScale h startScale d0 d1 ∧
    (d1 / d0 ≤ 1/10 → resizeDragNewScale h startScale d0 d1 = startScale * (1/10)) ∧
    (10 ≤ d1 / d0 → resizeDragNewScale h startScale d0 d1 = startScale * 10) ∧
    (1/10 ≤ d1 / d0 → d1 / d0 ≤ 10 →
      resizeDragNewScale h startScale d0 d1 = startScale * (d1 / d0)) := by
  have e : ∀ g : Fin 8, resizeDragNewScale g startScale d0 d1 =
      startScale * clampQ (1/10) 10 (d1 / d0) := by
    intro g
    rw [resizeDragNewScale, if_neg (ne_of_gt hd0), if_neg (ne_of_gt hd1)]
  refine ⟨e h, (e h').trans (e h).symm, ?_, ?_, ?_⟩
  · intro hle
    rw [e h, clampQ, min_eq_right (hle.trans (by norm_num)), max_eq_left hle]
  · intro hge
    rw [e h, clampQ, min_eq_left hge, max_eq_right (by norm_num)]
  · intro hlo hhi
    rw [e h, clampQ, min_eq_right hhi, max_eq_right hlo]

/-- Witness for C7 at a concrete input: handle 0, start scale 2, reference
length 1, current length 3. -/
theorem resize_handle_uniform_scale_witness :
    resizeDragNewScale 0 2 1 3 = 2 * clampQ (1/10) 10 (3 / 1) :=
  (resize_handle_uniform_scale 0 1 2 1 3 (by norm_num) (by norm_num)).1

/-! ## Claim C8 — ROTATE/SCALE canvas tools vs handle math -/

/-- C8 counterexample: with unit start scale, press vector (1,0) and current
vector (20,0) — whose euclidean and manhattan lengths agree (1 and 20) —
the SCALE tool multiplies the scale by 20, while the §4.1 handle math
`old_scale * clamp(d1/d0, 0.1, 10.0)` yields 10; and with press (3,4)
(euclidean 5, manhattan 7) and current (5,0) the tool yields 5/7 while the
euclidean handle math yields 1.  So the claimed equality with the handle
math is false. -/
theorem canvas_scale_tool_diverges :
    canvasScaleToolNewScale 1 (1, 0) (20, 0) = 20 ∧
    (1 : ℚ) * clampQ (1/10) 10 (20 / 1) = 10 ∧
    canvasScaleToolNewScale 1 (1, 0) (20, 0) ≠ 1 * clampQ (1/10) 10 (20 / 1) ∧
    isHypotOf 1 (1, 0) ∧ isHypotOf 20 (20, 0) ∧
    canvasScaleToolNewScale 1 (3, 4) (5, 0) = 5/7 ∧
    (1 : ℚ) * clampQ (1/10) 10 (5 / 5) = 1 ∧
    canvasScaleToolNewScale 1 (3, 4) (5, 0) ≠ 1 * clampQ (1/10) 10 (5 / 5) ∧
    isHypotOf 5 (3, 4) ∧ isHypotOf 5 (5, 0) := by
  refine ⟨?_, ?_, ?_, ?_, ?_, ?_, ?_, ?_, ?_, ?_⟩ <;>
    norm_num [canvasScaleToolNewScale, manhattanLength, clampQ, isHypotOf, max_def, min_def]

/-- C8 (amended): the ROTATE tool applies the same angle math as the rotate
handle — for ANY radian `atan2` function and any radians→degrees factor the
two rotation formulas coincide — but the SCALE tool does NOT apply the
handle math: with a positive manhattan reference length it sets the scale to
`start_scale * (manhattan(curr)/manhattan(start))`, unclamped, and there are
drags on which this differs from the handle formula
`start_scale * clamp(euclidean ratio, 0.1, 10.0)`. -/
theorem rotate_scale_tool_math :
    (∀ (atan2 : ℚ × ℚ → ℚ) (degFactor startRotation : ℚ) (sv cv : ℚ × ℚ),
        canvasRotateToolNewRotation atan2 degFactor startRotation sv cv =
          rotateHandleNewRotation atan2 degFactor startRotation sv cv) ∧
    (∀ (startScale : ℚ) (sv cv : ℚ × ℚ), 0 < manhattanLength sv →
        canvasScaleToolNewScale startScale sv cv =
          startScale * (manhattanLength cv / manhattanLength sv)) ∧
    (∃ (sv cv : ℚ × ℚ) (d0 d1 : ℚ), isHypotOf d0 sv ∧ isHypotOf d1 cv ∧
        0 < d0 ∧ 0 < d1 ∧
        canvasScaleToolNewScale 1 sv cv ≠ 1 * clampQ (1/10) 10 (d1 / d0)) := by
  refine ⟨?_, ?_, ?_⟩
  · intro atan2 degFactor startRotation sv cv
    rw [canvasRotateToolNewRotation, rotateHandleNewRotation]
    ring
  · intro startScale sv cv hpos
    rw [canvasScaleToolNewScale, if_pos hpos]
  · refine ⟨(1, 0), (20, 0), 1, 20, ?_, ?_, ?_, ?_, ?_⟩ <;>
      norm_num [canvasScaleToolNewScale, manhattanLength, clampQ, isHypotOf, max_def, min_def]

/-- Witness for C8's amended statement at a concrete input: start scale 3,
press vector (1,1) (manhattan length 2), current vector (4,0). -/
theorem rotate_scale_tool_math_witness :
    canvasScaleToolNewScale 3 (1, 1) (4, 0) =
      3 * (manhattanLength (4, 0) / manhattanLength (1, 1)) :=
  rotate_scale_tool_math.2.1 3 (1, 1) (4, 0) (by norm_num [manhattanLength])

/-! ## Claim C9 — plugin event hooks are not isolated -/

/-- C9 (code side): none of the four canvas event handlers guards the call
into the active plugin tool's hook; a hook that raises propagates its
exception out of the handler (here: the dispatch is an `Except.error`) for
mouse press, move and release and for key press alike, while a hook that
returns a handled/not-handled boolean routes the event as advertised. -/
theorem plugin_exception_propagates :
    mousePressDispatch ℕ false (some (Except.error 7)) = Except.error 7 ∧
    mouseMoveDispatch ℕ false (some (Except.error 7)) = Except.error 7 ∧
    mouseReleaseDispatch ℕ false (some (Except.error 7)) = Except.error 7 ∧
    keyPressDispatch ℕ false (some (Except.error 7)) = Except.error 7 ∧
    mousePressDispatch ℕ false (some (Except.ok true)) =
      Except.ok DispatchOutcome.pluginHandled ∧
    mousePressDispatch ℕ false (some (Except.ok false)) =
      Except.ok DispatchOutcome.builtinTool ∧
    mousePressDispatch ℕ false none = Except.ok DispatchOutcome.builtinTool :=
  ⟨rfl, rfl, rfl, rfl, rfl, rfl, rfl⟩

/-! ## Claim C3 — layer/z-order invariant -/

/-- The `update_z_orders` loop never touches an item that is not in the
remaining entries. -/
theorem assignZ_not_mem (count : ℕ) (f : ItemId → ItemState) (i : ℕ) (l : List ItemId)
    (id : ItemId) (h : id ∉ l) : assignZ count f i l id = f id := by
  induction l generalizing f i with
  | nil => rfl
  | cons a rest ih =>
    have hne : id ≠ a := fun he => h (by rw [he]; exact List.mem_cons_self a rest)
    rw [assignZ, ih _ _ (fun hm => h (List.mem_cons_of_mem a hm)),
      Function.update_noteq hne]

/-- Effect of the `update_z_orders` loop on the entry at position `j` of a
duplicate-free remainder, when the loop starts at running index `i`. -/
theorem assignZ_get (count : ℕ) (f : ItemId → ItemState) (i : ℕ) (l : List ItemId)
    (hnd : l.Nodup) (j : ℕ) (hj : j < l.length) :
    assignZ count f i l (l.get ⟨j, hj⟩) =
      { f (l.get ⟨j, hj⟩) with zValue := (count : ℚ) - ((i : ℚ) + (j : ℚ)) } := by
  induction l generalizing f i j with
  | nil => simp at hj
  | cons a rest ih =>
    obtain ⟨ha, hrest⟩ := List.nodup_cons.mp hnd
    cases j with
    | zero =>
      rw [assignZ]
      show assignZ count _ (i + 1) rest a = _
      rw [assignZ_not_mem _ _ _ _ _ ha, Function.update_same]
      norm_num
    | succ j' =>
      have hj' : j' < rest.length := by simpa using hj
      rw [assignZ]
      show assignZ count _ (i + 1) rest ((a :: rest).get ⟨j' + 1, hj⟩) = _
      have hget : (a :: rest).get ⟨j' + 1, hj⟩ = rest.get ⟨j', hj'⟩ := rfl
      have hne : rest.get ⟨j', hj'⟩ ≠ a := by
        intro he
        exact ha (by rw [← he]; exact List.get_mem rest j' hj')
      rw [hget, ih _ _ hrest j' hj', Function.update_noteq hne]
      push_cast
      ring_nf

/-- `update_z_orders` establishes the layer/z-order invariant on any world
with a duplicate-free layer list. -/
theorem layerInv_updateZOrders (w : World) (hnd : w.layer.Nodup) :
    LayerInv (updateZOrders w) := by
  intro i h
  have h' : i < w.layer.length := h
  show (assignZ w.layer.length w.items 0 w.layer (w.layer.get ⟨i, h'⟩)).zValue =
    (w.layer.length : ℚ) - (i : ℚ)
  rw [assignZ_get w.layer.length w.items 0 w.layer hnd i h']
  norm_num

/-- Every id retained by the bulk-remove filter was already a layer entry,
so duplicate-freeness survives; an all-miss filter returns the list itself. -/
theorem filter_not_contains_of_not_mem (l : List ItemId) (id : ItemId) (h : id ∉ l) :
    l.filter (fun i => !(List.contains [id] i)) = l := by
  apply List.filter_eq_self.mpr
  intro a ha
  simp only [List.contains_cons, List.contains_nil, Bool.or_false, Bool.not_eq_eq_eq_not,
    Bool.not_true, beq_eq_false_iff_ne, ne_eq]
  intro he
  rw [he] at ha
  exact h ha

/-- Each Layer Model operation (insert at top of a fresh item, bulk remove,
drag-reorder, move up/down by one) preserves duplicate-freeness and
re-establishes the layer/z-order invariant. -/
theorem applyLayerOp_preserves (op : LayerOp) (w : World) (hnd : w.layer.Nodup)
    (hinv : LayerInv w) (hv : validOp op w) :
    (applyLayerOp op w).layer.Nodup ∧ LayerInv (applyLayerOp op w) := by
  cases op with
  | insertTop id =>
    have h1 : (id :: w.layer).Nodup := List.nodup_cons.mpr ⟨hv, hnd⟩
    exact ⟨h1, layerInv_updateZOrders _ h1⟩
  | removeBulk ids =>
    show (removeGraphicsItems ids w).layer.Nodup ∧ LayerInv (removeGraphicsItems ids w)
    rw [removeGraphicsItems]
    by_cases h0 : ids = []
    · rw [if_pos h0]; exact ⟨hnd, hinv⟩
    · rw [if_neg h0]
      by_cases h1 : w.layer.filter (fun i => !ids.contains i) = w.layer
      · simp only [h1, if_pos]; exact ⟨hnd, hinv⟩
      · simp only [h1, if_neg, if_false]
        have h2 : (w.layer.filter (fun i => !ids.contains i)).Nodup := hnd.filter _
        exact ⟨h2, layerInv_updateZOrders _ h2⟩
  | reorder newOrder =>
    have h1 : newOrder.Nodup := hv.symm.nodup hnd
    exact ⟨h1, layerInv_updateZOrders _ h1⟩
  | moveDelta row delta =>
    simp only [applyLayerOp]
    split
    case isTrue h =>
      obtain ⟨hrow, hnr0, hnrc⟩ := h
      have hlen : (w.layer.eraseIdx row).length = w.layer.length - 1 := by
        have := List.length_eraseIdx_add_one hrow
        omega
      have hk : (((row : ℤ) + delta).toNat) ≤ (w.layer.eraseIdx row).length := by
        rw [hlen]; omega
      have e2 : (List.insertIdx ((row : ℤ) + delta).toNat (w.layer.get ⟨row, hrow⟩)
          (w.layer.eraseIdx row)).Perm
          (w.layer.get ⟨row, hrow⟩ :: w.layer.eraseIdx row) :=
        List.perm_insertIdx _ _ hk
      have e1 : w.layer.Perm (w.layer.get ⟨row, hrow⟩ :: w.layer.eraseIdx row) := by
        rw [List.eraseIdx_eq_take_drop_succ]
        have hsplit : w.layer = w.layer.take row ++ w.layer.drop row :=
          (List.take_append_drop row w.layer).symm
        have hdrop : w.layer.drop row = w.layer.get ⟨row, hrow⟩ :: w.layer.drop (row + 1) := by
          rw [List.get_eq_getElem]
          exact (List.getElem_cons_drop w.layer row hrow).symm
        nth_rewrite 1 [hsplit, hdrop]
        exact List.perm_middle
      have hperm := e2.trans e1.symm
      have h1 := hperm.symm.nodup hnd
      exact ⟨h1, layerInv_updateZOrders _ h1⟩
    case isFalse h => exact ⟨hnd, hinv⟩

/-- A valid operation sequence keeps the world duplicate-free and the
invariant holding after the whole sequence. -/
theorem applySeq_preserves (ops : List LayerOp) (w : World) (hnd : w.layer.Nodup)
    (hinv : LayerInv w) (hv : validSeq ops w) :
    (applySeq ops w).layer.Nodup ∧ LayerInv (applySeq ops w) := by
  induction ops generalizing w with
  | nil => exact ⟨hnd, hinv⟩
  | cons op ops ih =>
    obtain ⟨hvo, hvs⟩ := hv
    obtain ⟨h1, h2⟩ := applyLayerOp_preserves op w hnd hinv hvo
    exact ih _ h1 h2 hvs

/-- Validity of an operation sequence restricts to every prefix. -/
theorem validSeq_append_left (pre suf : List LayerOp) (w : World)
    (hv : validSeq (pre ++ suf) w) : validSeq pre w := by
  induction pre generalizing w with
  | nil => trivial
  | cons op ops ih => exact ⟨hv.1, ih _ hv.2⟩

/-- C3: for every sequence of Layer Model structural operations (insert at
top, bulk remove, drag-reorder, move up/down by one) valid for the
application (fresh inserts, permuting reorders) and starting from a
duplicate-free world satisfying the invariant, after EACH operation — i.e.
after every prefix of the sequence — the item referenced at layer index `i`
has z-value `count - i` for every `i`. -/
theorem layer_z_invariant (ops : List LayerOp) (w : World) (hnd : w.layer.Nodup)
    (hinv : LayerInv w) (hv : validSeq ops w) (pre suf : List LayerOp)
    (hsplit : ops = pre ++ suf) :
    LayerInv (applySeq pre w) := by
  subst hsplit
  exact (applySeq_preserves pre w hnd hinv (validSeq_append_left pre suf w hv)).2

/-- Witness for C3 at a concrete input: from the empty world, insert items 0
and 1, drag-reorder them, move one down, bulk-remove one. -/
theorem layer_z_invariant_witness :
    LayerInv (applySeq [LayerOp.insertTop 0, LayerOp.insertTop 1, LayerOp.reorder [0, 1],
      LayerOp.moveDelta 0 1, LayerOp.removeBulk [1]] emptyWorld) :=
  layer_z_invariant
    [LayerOp.insertTop 0, LayerOp.insertTop 1, LayerOp.reorder [0, 1],
      LayerOp.moveDelta 0 1, LayerOp.removeBulk [1]]
    emptyWorld List.nodup_nil (fun i h => absurd h (by simp [emptyWorld]))
    ⟨by simp [validOp, emptyWorld], by
        simp [validOp, applyLayerOp, updateZOrders, emptyWorld],
      by
        show List.Perm [0, 1] [1, 0]
        exact List.Perm.swap 1 0 [],
      trivial, trivial, trivial⟩
    [LayerOp.insertTop 0, LayerOp.insertTop 1, LayerOp.reorder [0, 1],
      LayerOp.moveDelta 0 1, LayerOp.removeBulk [1]] [] rfl

/-! ## Claims C5 and C6 — selection/crop extraction on a RasterItem -/

/-- When the mapped overlay rect is an integer rect lying fully inside the
host's pixel bounds, `_selection_rects` returns it unchanged. -/
theorem selectionRects_of_inside (it : RasterItemM) (x y w h : ℤ)
    (hov : it.overlayLocalRect = some ⟨(x : ℚ), (y : ℚ), (w : ℚ), (h : ℚ)⟩)
    (hx : 0 ≤ x) (hy : 0 ≤ y) (hw : 0 < w) (hh : 0 < h)
    (hxw : x + w ≤ it.img.width) (hyh : y + h ≤ it.img.height) :
    it.selectionRects = some ⟨(x : ℚ), (y : ℚ), (w : ℚ), (h : ℚ)⟩ := by
  have hw' : (0 : ℚ) ≤ (w : ℚ) := by exact_mod_cast hw.le
  have hh' : (0 : ℚ) ≤ (h : ℚ) := by exact_mod_cast hh.le
  have hwpos : (0 : ℚ) < (w : ℚ) := by exact_mod_cast hw
  have hhpos : (0 : ℚ) < (h : ℚ) := by exact_mod_cast hh
  have hx' : (0 : ℚ) ≤ (x : ℚ) := by exact_mod_cast hx
  have hy' : (0 : ℚ) ≤ (y : ℚ) := by exact_mod_cast hy
  have hxw' : (x : ℚ) + (w : ℚ) ≤ 0 + (it.img.width : ℚ) := by
    rw [zero_add]; exact_mod_cast hxw
  have hyh' : (y : ℚ) + (h : ℚ) ≤ 0 + (it.img.height : ℚ) := by
    rw [zero_add]; exact_mod_cast hyh
  have hnorm : (RectQ.mk (x : ℚ) (y : ℚ) (w : ℚ) (h : ℚ)).normalizedR =
      ⟨(x : ℚ), (y : ℚ), (w : ℚ), (h : ℚ)⟩ := by
    rw [RectQ.normalizedR]
    simp [not_lt.mpr hw', not_lt.mpr hh', abs_of_nonneg hw', abs_of_nonneg hh']
  have hinter : (RectQ.mk (x : ℚ) (y : ℚ) (w : ℚ) (h : ℚ)).intersected
      ⟨0, 0, (it.img.width : ℚ), (it.img.height : ℚ)⟩ =
      ⟨(x : ℚ), (y : ℚ), (w : ℚ), (h : ℚ)⟩ := by
    rw [RectQ.intersected]
    simp only [max_eq_left hx', max_eq_left hy', min_eq_left hxw', min_eq_left hyh']
    congr 1 <;> ring
  have hempty : (RectQ.mk (x : ℚ) (y : ℚ) (w : ℚ) (h : ℚ)).isEmptyR = false := by
    rw [RectQ.isEmptyR]
    simp only [Bool.or_eq_false_iff, decide_eq_false_iff_not, not_le]
    exact ⟨hwpos, hhpos⟩
  rw [RasterItemM.selectionRects, hov]
  simp only [hnorm, hinter, hempty, Bool.false_eq_true, if_false]

/-- `toAlignedRect` is the identity on a rect with integer corners. -/
theorem toAlignedRect_intCast (x y w h : ℤ) :
    (RectQ.mk (x : ℚ) (y : ℚ) (w : ℚ) (h : ℚ)).toAlignedRect = ⟨x, y, w, h⟩ := by
  have ex : ((x : ℚ) + (w : ℚ)) = (((x + w : ℤ)) : ℚ) := by push_cast; ring
  have ey : ((y : ℚ) + (h : ℚ)) = (((y + h : ℤ)) : ℚ) := by push_cast; ring
  rw [RectQ.toAlignedRect]
  simp only [ex, ey, Int.floor_intCast, Int.ceil_intCast]
  congr 1 <;> ring

/-- C5: with a selection rect `[x, y, w, h]` fully inside the host's pixel
bounds, `endSelection` returns a new bitmap of size `w × h` equal to the
host's original pixel data at `[x, y, w, h]` (for every fill mode and
`removeOriginal` flag); with `removeOriginal = True` the host's own bitmap
becomes fully transparent on that region in TRANSPARENT mode, or a flat fill
of the color sampled at the selection's center pixel in AUTO_FILL mode, and
is untouched outside the region; with `removeOriginal = False` the host is
byte-for-byte unchanged (only the overlay is destroyed). -/
theorem crop_extraction (it : RasterItemM) (x y w h : ℤ)
    (hov : it.overlayLocalRect = some ⟨(x : ℚ), (y : ℚ), (w : ℚ), (h : ℚ)⟩)
    (hx : 0 ≤ x) (hy : 0 ≤ y) (hw : 0 < w) (hh : 0 < h)
    (hxw : x + w ≤ it.img.width) (hyh : y + h ≤ it.img.height) :
    (∀ fm ro, (it.endSelection fm ro).1 = some (it.img.copyRect ⟨x, y, w, h⟩)) ∧
    (∀ i j : ℤ, (it.img.copyRect ⟨x, y, w, h⟩).px i j = it.img.px (x + i) (y + j)) ∧
    (it.img.copyRect ⟨x, y, w, h⟩).width = w ∧
    (it.img.copyRect ⟨x, y, w, h⟩).height = h ∧
    (∀ i j : ℤ, (it.endSelection FillMode.TRANSPARENT true).2.img.px i j =
      if x ≤ i ∧ i < x + w ∧ y ≤ j ∧ j < y + h then transparentColor else it.img.px i j) ∧
    (∀ i j : ℤ, (it.endSelection FillMode.AUTO_FILL true).2.img.px i j =
      if x ≤ i ∧ i < x + w ∧ y ≤ j ∧ j < y + h then
        it.img.px (qround ((x : ℚ) + (w : ℚ) / 2)) (qround ((y : ℚ) + (h : ℚ) / 2))
      else it.img.px i j) ∧
    (∀ fm, (it.endSelection fm false).2 = { it with overlayLocalRect := none }) := by
  have hsel := selectionRects_of_inside it x y w h hov hx hy hw hh hxw hyh
  have halign := toAlignedRect_intCast x y w h
  refine ⟨?_, ?_, rfl, rfl, ?_, ?_, ?_⟩
  · intro fm ro
    simp only [RasterItemM.endSelection, hsel, halign]
  · intro i j
    rfl
  · intro i j
    simp only [RasterItemM.endSelection, hsel, halign, if_pos, Image.fillRect]
  · intro i j
    simp only [RasterItemM.endSelection, hsel, halign, if_pos, Image.fillRect]
  · intro fm
    simp only [RasterItemM.endSelection, hsel, Bool.false_eq_true, if_false]

/-- Witness for C5 at a concrete input: a 4×4 image whose pixel (i, j)
stores its own coordinates, with the selection rect [1, 1, 2, 2]. -/
theorem crop_extraction_witness :
    ((RasterItemM.mk ⟨4, 4, fun i j => ⟨255, i.toNat, j.toNat, 0⟩⟩
        (some ⟨1, 1, 2, 2⟩) 0 0 0 1).endSelection FillMode.TRANSPARENT true).1 =
      some ((Image.mk 4 4 (fun i j => ⟨255, i.toNat, j.toNat, 0⟩)).copyRect ⟨1, 1, 2, 2⟩) :=
  ((crop_extraction (RasterItemM.mk ⟨4, 4, fun i j => ⟨255, i.toNat, j.toNat, 0⟩⟩
      (some ⟨1, 1, 2, 2⟩) 0 0 0 1) 1 1 2 2 (by norm_num) (by norm_num) (by norm_num)
      (by norm_num) (by norm_num) (by norm_num) (by norm_num)).1) FillMode.TRANSPARENT true

/-- C6: when the overlay rect, mapped to the host's local coordinate space
and intersected with the host's pixel bounds, is empty, `endSelection`
destroys the overlay, returns nothing, and leaves the host's bitmap,
position, rotation, and scale unchanged (for every fill mode and
`removeOriginal` flag). -/
theorem endSelection_empty_cancels (it : RasterItemM) (r : RectQ)
    (hov : it.overlayLocalRect = some r)
    (he : (r.normalizedR.intersected
      ⟨0, 0, (it.img.width : ℚ), (it.img.height : ℚ)⟩).isEmptyR = true) :
    ∀ fm ro, it.endSelection fm ro = (none, { it with overlayLocalRect := none }) := by
  intro fm ro
  have hsel : it.selectionRects = none := by
    rw [RasterItemM.selectionRects, hov]
    simp only [he, if_true]
  simp only [RasterItemM.endSelection, hsel]

/-- Witness for C6 at a concrete input: a 4×4 image with an overlay rect
entirely outside the pixel bounds. -/
theorem endSelection_empty_cancels_witness :
    (RasterItemM.mk ⟨4, 4, fun i j => ⟨255, i.toNat, j.toNat, 0⟩⟩
        (some ⟨10, 10, 2, 2⟩) 0 0 0 1).endSelection FillMode.TRANSPARENT true =
      (none, RasterItemM.mk ⟨4, 4, fun i j => ⟨255, i.toNat, j.toNat, 0⟩⟩
        none 0 0 0 1) :=
  endSelection_empty_cancels
    (RasterItemM.mk ⟨4, 4, fun i j => ⟨255, i.toNat, j.toNat, 0⟩⟩ (some ⟨10, 10, 2, 2⟩) 0 0 0 1)
    ⟨10, 10, 2, 2⟩ rfl
    (by norm_num [RectQ.normalizedR, RectQ.intersected, RectQ.isEmptyR, max_def, min_def])
    FillMode.TRANSPARENT true

/-! ## Claim C1 — undo/redo round trip -/

/-- Writing an item twice keeps only the second write. -/
theorem setItem_setItem (w : World) (id : ItemId) (s1 s2 : ItemState) :
    setItem (setItem w id s1) id s2 = { w with items := Function.update w.items id s2 } := by
  simp [setItem, Function.update_idem]

/-- Reading back a just-written item. -/
theorem items_setItem_same (w : World) (id : ItemId) (s : ItemState) :
    (setItem w id s).items id = s := by
  simp [setItem]

/-- Writing an item's current state back is a no-op. -/
theorem setItem_eq_self (w : World) (id : ItemId) : setItem w id (w.items id) = w := by
  simp [setItem, Function.update_eq_self]

/-- Removing a single id with no layer entry leaves the world unchanged. -/
theorem removeGraphicsItems_not_mem (id : ItemId) (w : World)
    (h : w.layer.contains id = false) : removeGraphicsItems [id] w = w := by
  have hnm : id ∉ w.layer := by simpa using h
  rw [removeGraphicsItems, if_neg (by simp : ¬([id] = ([] : List ItemId)))]
  simp only [filter_not_contains_of_not_mem w.layer id hnm, if_pos]

mutual

/-- Core cancellation: for a safe action — captured old state matching the
current state, and no layer entry for the item of an Add/Remove child —
undoing right after executing restores the world exactly. -/
theorem exec_undo_cancel (a : UAction) (w : World) (hs : safeAction a w = true) :
    undoAction a (execAction a w) = w := by
  cases a with
  | addItem id =>
    simp only [safeAction, Bool.and_eq_true, Bool.not_eq_true'] at hs
    obtain ⟨h1, h2⟩ := hs
    have hitem : (ItemState.mk (w.items id).posX (w.items id).posY (w.items id).rotation
        (w.items id).scaleFactor (w.items id).zValue (w.items id).pixmap false
        (w.items id).rect) = w.items id := by
      rw [← h1]
    simp only [execAction, undoAction, h1, Bool.false_eq_true, if_false,
      items_setItem_same, setItem_setItem]
    rw [hitem, Function.update_eq_self]
    exact removeGraphicsItems_not_mem id w h2
  | removeItem id capX capY capZ =>
    simp only [safeAction, Bool.and_eq_true, Bool.not_eq_true', decide_eq_true_eq] at hs
    obtain ⟨⟨⟨⟨h1, h2⟩, h3⟩, h4⟩, h5⟩ := hs
    have h5' : ((setItem w id { w.items id with inScene := false }).layer.contains id) =
        false := h5
    have hitem : (ItemState.mk capX capY (w.items id).rotation
        (w.items id).scaleFactor capZ (w.items id).pixmap true
        (w.items id).rect) = w.items id := by
      rw [← h1, ← h2, ← h3, ← h4]
    simp only [execAction, undoAction, h1, if_true,
      removeGraphicsItems_not_mem id _ h5', items_setItem_same,
      Bool.false_eq_true, if_false, setItem_setItem]
    rw [hitem, Function.update_eq_self]
  | move id ox oy nx ny =>
    simp only [safeAction, Bool.and_eq_true, decide_eq_true_eq] at hs
    obtain ⟨h1, h2⟩ := hs
    have hitem : (ItemState.mk ox oy (w.items id).rotation (w.items id).scaleFactor
        (w.items id).zValue (w.items id).pixmap (w.items id).inScene
        (w.items id).rect) = w.items id := by
      rw [← h1, ← h2]
    simp only [execAction, undoAction, items_setItem_same, setItem_setItem]
    rw [hitem, Function.update_eq_self]
  | transform id or0 os0 nr ns =>
    simp only [safeAction, Bool.and_eq_true, decide_eq_true_eq] at hs
    obtain ⟨h1, h2⟩ := hs
    have hitem : (ItemState.mk (w.items id).posX (w.items id).posY or0 os0
        (w.items id).zValue (w.items id).pixmap (w.items id).inScene
        (w.items id).rect) = w.items id := by
      rw [← h1, ← h2]
    simp only [execAction, undoAction, items_setItem_same, setItem_setItem]
    rw [hitem, Function.update_eq_self]
  | imageEdit id op np =>
    simp only [safeAction, decide_eq_true_eq] at hs
    have hitem : (ItemState.mk (w.items id).posX (w.items id).posY (w.items id).rotation
        (w.items id).scaleFactor (w.items id).zValue op (w.items id).inScene
        (w.items id).rect) = w.items id := by
      rw [← hs]
    simp only [execAction, undoAction, items_setItem_same, setItem_setItem]
    rw [hitem, Function.update_eq_self]
  | group d cs =>
    exact execList_cancel cs w hs

/-- Group cancellation: undoing the children in reverse order after running
them in order restores the world, child by child. -/
theorem execList_cancel (cs : List UAction) (w : World) (hs : safeList cs w = true) :
    undoListRev cs (execListFwd cs w) = w := by
  cases cs with
  | nil => rfl
  | cons c rest =>
    rw [safeList, Bool.and_eq_true] at hs
    show undoAction c (undoListRev rest (execListFwd rest (execAction c w))) = w
    rw [execList_cancel rest (execAction c w) hs.2]
    exact exec_undo_cancel c w hs.1

end

/-- C1 (amended): for a safe action — every child a Move/Transform/ImageEdit
with captured old state matching the current state at its execution point,
or an Add/Remove of an item with no layer entry — including an ActionGroup
of two or more heterogeneous children, `execute(A)` through the UndoManager
followed by `undo()` restores the observable world exactly, and `redo()`
after that `undo()` restores the post-execute world. -/
theorem undo_redo_roundtrip (s : UMState) (a : UAction)
    (hg : s.groupStack = []) (hm : 1 ≤ s.maxHistory) (hs : safeAction a s.world = true) :
    (s.execute a).undoTop.2 = true ∧
    (s.execute a).undoTop.1.world = s.world ∧
    (s.execute a).undoTop.1.redoTop.2 = true ∧
    (s.execute a).undoTop.1.redoTop.1.world = (s.execute a).world := by
  obtain ⟨m', hm'⟩ : ∃ m', s.maxHistory = m' + 1 := ⟨s.maxHistory - 1, by omega⟩
  rw [execute_ungrouped s a hg, hm', List.take_succ_cons]
  simp only [UMState.undoTop, UMState.redoTop]
  refine ⟨trivial, exec_undo_cancel a s.world hs, trivial, ?_⟩
  simp only [exec_undo_cancel a s.world hs]

/-- Witness for C1 at a concrete input: a heterogeneous group of a move and
a transform on item 0, executed on `oneItemWorld` through a fresh manager. -/
theorem undo_redo_roundtrip_witness :
    ((oneItemState.execute
        (UAction.group "g" [UAction.move 0 0 0 5 6, UAction.transform 0 0 1 90 2])).undoTop.1.world =
      oneItemWorld) :=
  (undo_redo_roundtrip oneItemState
    (UAction.group "g" [UAction.move 0 0 0 5 6, UAction.transform 0 0 1 90 2])
    rfl (by norm_num [oneItemState])
    (by norm_num [safeAction, safeList, execAction, setItem, oneItemState, oneItemWorld,
      freshItem, Function.update])).2.1

/-- C1 counterexample: `RemoveItemAction` on an item that IS a layer entry —
the normal situation — has captured old state (position and z-value)
matching the current state, yet `execute; undo()` does not restore the
observable state: the item's layer entry is gone (the layer list is empty
afterwards instead of `[0]`), because `RemoveItemAction.undo` re-inserts
into the scene but never into the layer list. -/
theorem remove_undo_loses_layer_entry :
    capturesMatch removeZeroAction oneItemWorld = true ∧
    oneItemWorld.layer = [0] ∧
    (oneItemState.execute removeZeroAction).undoTop.1.world.layer = [] ∧
    (oneItemState.execute removeZeroAction).undoTop.1.world.layer ≠ oneItemWorld.layer := by
  refine ⟨?_, rfl, ?_, ?_⟩
  · norm_num [capturesMatch, removeZeroAction, oneItemWorld, freshItem, Function.update]
  · rw [execute_ungrouped oneItemState removeZeroAction rfl]
    rfl
  · rw [execute_ungrouped oneItemState removeZeroAction rfl]
    decide

end CanvasForge
